import Mathlib

/-!
Verification of the `rundramatiq` management command of django_dramatiq
(`django_dramatiq/management/commands/rundramatiq.py`): ignore-pattern
matching, task-module discovery, and construction of the argument vector
handed to the external `dramatiq` worker-supervisor.

Python strings are modelled as lists of characters (`Str`); Python's
`module_name.split(".")` and `".".join(parts)` become `splitOnDot` and
`joinDots`.  Python set membership (`x in s`) becomes `List.contains`.
The Django runtime (app registry, `module_has_submodule`, module import,
`pkgutil.walk_packages`) is an external collaborator and is modelled as
an oracle structure `DiscoveryEnv`.
-/

/-- Python strings, modelled as lists of characters. -/
abbrev Str := List Char

/-- A string literal, as a `Str`. -/
def str (s : String) : Str := s.toList

/-- Python's `str(n)` for an integer `n`. -/
def intStr (n : Int) : Str := (toString n).toList

/-- `module_name.split(".")`: split a string on the dot character.
Always returns a non-empty list; adjacent dots yield empty segments,
exactly like Python's `str.split`. -/
def splitOnDot : Str → List Str
  | [] => [[]]
  | c :: rest =>
    match splitOnDot rest with
    | [] => [[]]
    | p :: ps => if c = '.' then [] :: p :: ps else (c :: p) :: ps

/-- `".".join(parts)`: interleave the segments with dots. -/
def joinDots : List Str → Str
  | [] => []
  | [p] => p
  | p :: ps => p ++ '.' :: joinDots ps

/-- `is_ignored_module` (inner function of
`Command.discover_tasks_modules`, rundramatiq.py lines 176-190):
returns `False` when the ignore set is empty, `True` on exact
membership, otherwise tries every proper dotted prefix of the module
name with `".*"` appended. -/
def is_ignored_module (module_name : Str) (ignored_modules : List Str) : Bool :=
  if ignored_modules.isEmpty then
    false
  else if ignored_modules.contains module_name then
    true
  else
    let name_parts := splitOnDot module_name
    (List.range' 1 (name_parts.length - 1)).any fun c =>
      ignored_modules.contains (joinDots (name_parts.take c) ++ ['.', '*'])

example : is_ignored_module (str "a.b.c") [str "a.*"] = true := by decide
example : is_ignored_module (str "a.b.c") [str "a.b.*"] = true := by decide
example : is_ignored_module (str "a.b.c") [str "a"] = false := by decide
example : is_ignored_module (str "standalone") [str "x.*"] = false := by decide
example : is_ignored_module (str "standalone") [str "standalone"] = true := by decide

theorem splitOnDot_ne_nil (s : Str) : splitOnDot s ≠ [] := by
  cases s with
  | nil => simp [splitOnDot]
  | cons c rest =>
    cases h : splitOnDot rest with
    | nil => simp [splitOnDot, h]
    | cons p ps =>
      simp only [splitOnDot, h]
      split <;> simp

theorem splitOnDot_cons (c : Char) (s p : Str) (ps : List Str)
    (h : splitOnDot s = p :: ps) :
    splitOnDot (c :: s) = if c = '.' then [] :: p :: ps else (c :: p) :: ps := by
  simp [splitOnDot, h]

theorem splitOnDot_append (a b : Str) :
    splitOnDot (a ++ '.' :: b) = splitOnDot a ++ splitOnDot b := by
  induction a with
  | nil =>
    cases h : splitOnDot b with
    | nil => exact absurd h (splitOnDot_ne_nil b)
    | cons p ps => simp [splitOnDot, h]
  | cons c a ih =>
    cases ha : splitOnDot a with
    | nil => exact absurd ha (splitOnDot_ne_nil a)
    | cons q qs =>
      have ih' : splitOnDot (a ++ '.' :: b) = q :: (qs ++ splitOnDot b) := by
        rw [ih, ha]; rfl
      rw [List.cons_append, splitOnDot_cons c _ _ _ ih',
        splitOnDot_cons c a q qs ha]
      split <;> simp

theorem joinDots_append (l₁ l₂ : List Str) (h₁ : l₁ ≠ []) (h₂ : l₂ ≠ []) :
    joinDots (l₁ ++ l₂) = joinDots l₁ ++ '.' :: joinDots l₂ := by
  induction l₁ with
  | nil => exact absurd rfl h₁
  | cons p ps ih =>
    cases ps with
    | nil =>
      cases l₂ with
      | nil => exact absurd rfl h₂
      | cons q qs => simp [joinDots]
    | cons r rs =>
      calc joinDots ((p :: r :: rs) ++ l₂)
          = p ++ '.' :: joinDots ((r :: rs) ++ l₂) := by simp [joinDots]
        _ = p ++ '.' :: (joinDots (r :: rs) ++ '.' :: joinDots l₂) := by
              rw [ih (by simp)]
        _ = joinDots (p :: r :: rs) ++ '.' :: joinDots l₂ := by simp [joinDots]

theorem joinDots_splitOnDot (s : Str) : joinDots (splitOnDot s) = s := by
  induction s with
  | nil => rfl
  | cons c rest ih =>
    cases h : splitOnDot rest with
    | nil => exact absurd h (splitOnDot_ne_nil rest)
    | cons p ps =>
      rw [h] at ih
      by_cases hc : c = '.'
      · subst hc
        simp only [splitOnDot, h, if_pos rfl]
        simpa [joinDots] using ih
      · simp only [splitOnDot, h, if_neg hc]
        cases ps with
        | nil =>
          simp [joinDots] at ih ⊢
          simp [ih]
        | cons q qs =>
          simp [joinDots] at ih ⊢
          simp [ih]

theorem splitOnDot_no_dot (s : Str) (h : '.' ∉ s) : splitOnDot s = [s] := by
  induction s with
  | nil => rfl
  | cons c rest ih =>
    have hc : c ≠ '.' := fun hh => h (hh ▸ List.mem_cons_self c rest)
    have hr : '.' ∉ rest := fun hh => h (List.mem_cons_of_mem c hh)
    simp [splitOnDot, ih hr, hc]

theorem contains_eq_false_of_not_mem {a : Str} {l : List Str} (h : a ∉ l) :
    l.contains a = false :=
  Bool.eq_false_iff.mpr fun hh => h (List.elem_iff.mp hh)


/-- Soundness of wildcard matching: a pattern `pre ++ ".*"` in the
ignore set matches every module of the form `pre ++ "." ++ rest`. -/
theorem ignored_of_wildcard_mem (pre rest : Str) (P : List Str)
    (hp : (pre ++ ['.', '*']) ∈ P) :
    is_ignored_module (pre ++ '.' :: rest) P = true := by
  have hPne : P ≠ [] := fun h => absurd (h ▸ hp) (List.not_mem_nil _)
  have hemp : P.isEmpty = false := by
    cases P with
    | nil => exact absurd rfl hPne
    | cons x xs => rfl
  by_cases hc : P.contains (pre ++ '.' :: rest) = true
  · simp only [is_ignored_module, hemp, Bool.false_eq_true, if_false, hc,
      if_true]
  · simp only [is_ignored_module, hemp, Bool.false_eq_true, if_false, hc,
      if_neg hc]
    rw [List.any_eq_true]
    have hne_pre := splitOnDot_ne_nil pre
    have hne_rest := splitOnDot_ne_nil rest
    have hlen_pre : 1 ≤ (splitOnDot pre).length := List.length_pos.mpr hne_pre
    have hlen_rest : 1 ≤ (splitOnDot rest).length :=
      List.length_pos.mpr hne_rest
    refine ⟨(splitOnDot pre).length, ?_, ?_⟩
    · rw [List.mem_range'_1, splitOnDot_append, List.length_append]
      omega
    · rw [splitOnDot_append, List.take_left, joinDots_splitOnDot]
      exact List.elem_iff.mpr hp

/-- Completeness of the matcher: a `True` answer is always justified by
exact membership or by a wildcard pattern over a proper dotted prefix. -/
theorem ignored_complete (m : Str) (P : List Str)
    (h : is_ignored_module m P = true) :
    m ∈ P ∨ ∃ pre rest, m = pre ++ '.' :: rest ∧ (pre ++ ['.', '*']) ∈ P := by
  by_cases hemp : P.isEmpty = true
  · simp [is_ignored_module, hemp] at h
  · by_cases hc : P.contains m = true
    · exact Or.inl (List.elem_iff.mp hc)
    · right
      rw [is_ignored_module] at h
      rw [Bool.not_eq_true] at hemp
      simp only [hemp, Bool.false_eq_true, if_false, hc, if_neg hc] at h
      rw [List.any_eq_true] at h
      obtain ⟨c, hcm, hpred⟩ := h
      rw [List.mem_range'_1] at hcm
      have hmne := splitOnDot_ne_nil m
      have hmlen : 1 ≤ (splitOnDot m).length := List.length_pos.mpr hmne
      have htake : (splitOnDot m).take c ≠ [] := by
        have hl : ((splitOnDot m).take c).length = min c (splitOnDot m).length :=
          List.length_take c (splitOnDot m)
        intro hh
        rw [hh] at hl
        simp at hl
        omega
      have hdrop : (splitOnDot m).drop c ≠ [] := by
        have hl : ((splitOnDot m).drop c).length = (splitOnDot m).length - c :=
          List.length_drop c (splitOnDot m)
        intro hh
        rw [hh] at hl
        simp at hl
        omega
      refine ⟨joinDots ((splitOnDot m).take c),
        joinDots ((splitOnDot m).drop c), ?_, List.elem_iff.mp hpred⟩
      calc m = joinDots (splitOnDot m) := (joinDots_splitOnDot m).symm
        _ = joinDots ((splitOnDot m).take c ++ (splitOnDot m).drop c) := by
              rw [List.take_append_drop]
        _ = joinDots ((splitOnDot m).take c)
              ++ '.' :: joinDots ((splitOnDot m).drop c) :=
            joinDots_append _ _ htake hdrop

/-- A module name without a dot is ignored exactly when it is an exact
member of the pattern set. -/
theorem ignored_single_segment (m : Str) (P : List Str) (hdot : '.' ∉ m) :
    is_ignored_module m P = true ↔ m ∈ P := by
  constructor
  · intro h
    rcases ignored_complete m P h with h | ⟨pre, rest, hm, _⟩
    · exact h
    · exact absurd (hm ▸ List.mem_append_right pre (List.mem_cons_self '.' rest))
        hdot
  · intro h
    have hemp : P.isEmpty = false := by
      cases P with
      | nil => exact absurd h (List.not_mem_nil m)
      | cons x xs => rfl
    simp only [is_ignored_module, hemp, Bool.false_eq_true, if_false,
      List.elem_iff.mpr h, if_true]

/-- C1: a pattern ending in the wildcard marker `".*"` makes
`is_ignored_module` return `True` for every module whose dotted path is
the pattern's prefix followed by a dot and a remainder; every `True`
answer is justified either by exact membership or by such a wildcard
pattern (so a pattern without a wildcard matches only the exact module
name); and concretely `is_ignored_module "a.b.c" {"a.*"} = True`,
`is_ignored_module "a.b.c" {"a.b.*"} = True`,
`is_ignored_module "a.b.c" {"a"} = False`. -/
theorem is_ignored_module_wildcard_exact :
    (∀ (pre rest : Str) (P : List Str), (pre ++ ['.', '*']) ∈ P →
        is_ignored_module (pre ++ '.' :: rest) P = true)
    ∧ (∀ (m : Str) (P : List Str), is_ignored_module m P = true →
        m ∈ P ∨ ∃ pre rest, m = pre ++ '.' :: rest ∧ (pre ++ ['.', '*']) ∈ P)
    ∧ is_ignored_module (str "a.b.c") [str "a.*"] = true
    ∧ is_ignored_module (str "a.b.c") [str "a.b.*"] = true
    ∧ is_ignored_module (str "a.b.c") [str "a"] = false :=
  ⟨ignored_of_wildcard_mem, ignored_complete, by decide, by decide, by decide⟩

theorem is_ignored_module_wildcard_exact_witness :
    is_ignored_module (str "top" ++ '.' :: str "sub.leaf") [str "top.*"] = true :=
  is_ignored_module_wildcard_exact.1 (str "top") (str "sub.leaf")
    [str "top.*"] (by decide)

/-- C6: the ignore matcher has no false positives: for every non-empty
pattern set containing neither `"a.b"` nor `"a.*"`,
`is_ignored_module "a.b"` is `False`; and a module name without a dot is
ignored exactly when it is a member of the pattern set, so a
single-segment module can never be matched by a wildcard pattern. -/
theorem is_ignored_module_no_false_positives :
    (∀ P : List Str, P ≠ [] → str "a.b" ∉ P → str "a.*" ∉ P →
        is_ignored_module (str "a.b") P = false)
    ∧ (∀ (m : Str) (P : List Str), '.' ∉ m →
        (is_ignored_module m P = true ↔ m ∈ P)) := by
  constructor
  · intro P _ hab haw
    cases hval : is_ignored_module (str "a.b") P with
    | false => rfl
    | true =>
      exfalso
      rcases ignored_complete (str "a.b") P hval with h | ⟨pre, rest, hm, hw⟩
      · exact hab h
      · have hm' : (['a', '.', 'b'] : Str) = pre ++ '.' :: rest := hm
        rcases pre with _ | ⟨x, _ | ⟨y, _ | ⟨z, t⟩⟩⟩ <;> simp_all
        obtain ⟨hx, hr⟩ := hm'
        subst hx
        exact haw hw
  · intro m P hdot
    exact ignored_single_segment m P hdot

theorem is_ignored_module_no_false_positives_witness :
    is_ignored_module (str "a.b") [str "other"] = false :=
  is_ignored_module_no_false_positives.1 [str "other"] (by decide)
    (by decide) (by decide)

/-- A Django `AppConfig`, reduced to what `discover_tasks_modules`
reads: its dotted name (`conf.name`). -/
structure AppConf where
  name : Str
deriving DecidableEq

/-- Oracle for the Django/Python runtime services that
`discover_tasks_modules` calls: the app registry
(`apps.get_app_configs()`), `module_has_submodule(conf.module, m)`
(keyed here by the config's name, which determines `conf.module`),
the `_is_package` capability check (`hasattr(module, "__path__")`),
and `_get_submodules` (`pkgutil.walk_packages` over the package). -/
structure DiscoveryEnv where
  app_configs : List AppConf
  has_submodule : Str → Str → Bool
  is_package : Str → Bool
  submodules : Str → List Str

/-- The `app_configs` list built by the first loop of
`discover_tasks_modules` (rundramatiq.py lines 163-173): the config
named `"django_dramatiq"` is always paired with the fixed name
`"tasks"`; every other config is paired with each configured
task-module name it exposes as a submodule. -/
def candidate_pairs (env : DiscoveryEnv) (task_module_names : List Str) :
    List (AppConf × Str) :=
  env.app_configs.flatMap fun conf =>
    if conf.name = str "django_dramatiq" then
      [(conf, str "tasks")]
    else
      (task_module_names.filter fun tm => env.has_submodule conf.name tm).map
        fun tm => (conf, tm)

/-- The modules contributed by one `(conf, task_module)` pair in the
second loop of `discover_tasks_modules` (lines 192-210): nothing when
the candidate path is ignored; the candidate path itself when it is not
a package; otherwise its enumerated submodules, each re-checked against
the ignore patterns. -/
def candidate_contribution (env : DiscoveryEnv) (ignored : List Str)
    (pair : AppConf × Str) : List Str :=
  let module := pair.1.name ++ '.' :: pair.2
  if is_ignored_module module ignored then
    []
  else if !env.is_package module then
    [module]
  else
    (env.submodules module).filter fun sub => !is_ignored_module sub ignored

/-- `Command.discover_tasks_modules` (rundramatiq.py lines 162-212),
with the settings `DRAMATIQ_AUTODISCOVER_MODULES` and
`DRAMATIQ_IGNORED_MODULES` passed explicitly: the list always starts
with `"django_dramatiq.setup"`, followed by the contributions of the
candidate pairs in registry order. -/
def discover_tasks_modules (env : DiscoveryEnv)
    (task_module_names ignored : List Str) : List Str :=
  str "django_dramatiq.setup" ::
    (candidate_pairs env task_module_names).flatMap
      (candidate_contribution env ignored)

/-- C4: for every environment and configuration, the discovered module
list is non-empty and its first element is the built-in setup module
`"django_dramatiq.setup"`. -/
theorem discover_tasks_modules_head_setup
    (env : DiscoveryEnv) (task_module_names ignored : List Str) :
    1 ≤ (discover_tasks_modules env task_module_names ignored).length
    ∧ (discover_tasks_modules env task_module_names ignored).head?
        = some (str "django_dramatiq.setup") := by
  constructor
  · simp [discover_tasks_modules]
  · rfl

/-- A minimal environment in which only django_dramatiq itself is
installed, and its `tasks` module is a plain (non-package) module. -/
def envSelfOnly : DiscoveryEnv where
  app_configs := [⟨str "django_dramatiq"⟩]
  has_submodule := fun _ _ => false
  is_package := fun _ => false
  submodules := fun _ => []

/-- C3 counterexample: with `DRAMATIQ_IGNORED_MODULES =
{"django_dramatiq.tasks"}` the module `"django_dramatiq.tasks"` does
NOT appear in the discovered list, although the django_dramatiq app is
installed and its tasks module is a plain module — so the tasks module
is not "always found" for every configuration of
`DRAMATIQ_IGNORED_MODULES`. -/
theorem django_dramatiq_tasks_ignorable :
    str "django_dramatiq.tasks" ∉
      discover_tasks_modules envSelfOnly [str "tasks"]
        [str "django_dramatiq.tasks"] := by
  decide

/-- C3 (amended): the app config named `"django_dramatiq"` is paired
with the fixed submodule name `"tasks"` regardless of the configured
task-module names, and its tasks module appears in the discovered list
for every configuration of `DRAMATIQ_AUTODISCOVER_MODULES`, provided
the ignore patterns do not match `"django_dramatiq.tasks"` (and given
that the tasks module is a plain module, not a package). -/
theorem django_dramatiq_tasks_always_paired
    (env : DiscoveryEnv) (task_module_names ignored : List Str)
    (conf : AppConf) (hconf : conf ∈ env.app_configs)
    (hname : conf.name = str "django_dramatiq") :
    (conf, str "tasks") ∈ candidate_pairs env task_module_names
    ∧ (is_ignored_module (str "django_dramatiq.tasks") ignored = false →
       env.is_package (str "django_dramatiq.tasks") = false →
       str "django_dramatiq.tasks" ∈
         discover_tasks_modules env task_module_names ignored) := by
  have hmem : (conf, str "tasks") ∈ candidate_pairs env task_module_names := by
    rw [candidate_pairs, List.mem_flatMap]
    exact ⟨conf, hconf, by rw [if_pos hname]; exact List.mem_singleton.mpr rfl⟩
  refine ⟨hmem, fun hig hpkg => ?_⟩
  have hmod : conf.name ++ '.' :: str "tasks" = str "django_dramatiq.tasks" := by
    rw [hname]; decide
  rw [discover_tasks_modules]
  refine List.mem_cons_of_mem _ ?_
  rw [List.mem_flatMap]
  refine ⟨(conf, str "tasks"), hmem, ?_⟩
  rw [candidate_contribution]
  simp only [hmod, hig, Bool.false_eq_true, if_false, hpkg, Bool.not_false,
    if_true]
  exact List.mem_singleton.mpr rfl

theorem django_dramatiq_tasks_always_paired_witness :
    str "django_dramatiq.tasks" ∈
      discover_tasks_modules envSelfOnly [str "mytasks"] [] :=
  (django_dramatiq_tasks_always_paired envSelfOnly [str "mytasks"] []
    ⟨str "django_dramatiq"⟩ (by decide) rfl).2 (by decide) rfl

/-- An environment with one app `"app"` whose `tasks` module is a
package containing `app.tasks.email` and `app.tasks.sms`. -/
def envPkg : DiscoveryEnv where
  app_configs := [⟨str "app"⟩]
  has_submodule := fun n tm => n == str "app" && tm == str "tasks"
  is_package := fun m => m == str "app.tasks"
  submodules := fun m =>
    if m == str "app.tasks" then [str "app.tasks.email", str "app.tasks.sms"]
    else []

/-- C5: a non-ignored candidate that resolves to a package contributes
exactly its enumerated submodules filtered individually against the
ignore patterns (in enumeration order) and never the package's own
path; a non-ignored candidate that is not a package contributes the
candidate path itself; and concretely a package `app.tasks` with
submodules `app.tasks.email`, `app.tasks.sms` under ignore set
`{"app.tasks.sms"}` yields
`["django_dramatiq.setup", "app.tasks.email"]`. -/
theorem discover_package_expansion :
    (∀ (env : DiscoveryEnv) (tns ign : List Str) (conf : AppConf) (tm : Str),
      (conf, tm) ∈ candidate_pairs env tns →
      is_ignored_module (conf.name ++ '.' :: tm) ign = false →
      env.is_package (conf.name ++ '.' :: tm) = true →
      candidate_contribution env ign (conf, tm)
          = (env.submodules (conf.name ++ '.' :: tm)).filter
              (fun s => !is_ignored_module s ign)
        ∧ (∀ s ∈ env.submodules (conf.name ++ '.' :: tm),
            is_ignored_module s ign = false →
            s ∈ discover_tasks_modules env tns ign)
        ∧ ((conf.name ++ '.' :: tm) ∉ env.submodules (conf.name ++ '.' :: tm) →
            (conf.name ++ '.' :: tm) ∉ candidate_contribution env ign (conf, tm)))
    ∧ (∀ (env : DiscoveryEnv) (tns ign : List Str) (conf : AppConf) (tm : Str),
      (conf, tm) ∈ candidate_pairs env tns →
      is_ignored_module (conf.name ++ '.' :: tm) ign = false →
      env.is_package (conf.name ++ '.' :: tm) = false →
      candidate_contribution env ign (conf, tm) = [conf.name ++ '.' :: tm]
        ∧ (conf.name ++ '.' :: tm) ∈ discover_tasks_modules env tns ign)
    ∧ discover_tasks_modules envPkg [str "tasks"] [str "app.tasks.sms"]
        = [str "django_dramatiq.setup", str "app.tasks.email"] := by
  refine ⟨?_, ?_, by decide⟩
  · intro env tns ign conf tm hpair hig hpkg
    have hcontrib : candidate_contribution env ign (conf, tm)
        = (env.submodules (conf.name ++ '.' :: tm)).filter
            (fun s => !is_ignored_module s ign) := by
      rw [candidate_contribution]
      simp only [hig, Bool.false_eq_true, if_false, hpkg, Bool.not_true,
        if_true]
    refine ⟨hcontrib, ?_, ?_⟩
    · intro s hs hsig
      rw [discover_tasks_modules]
      refine List.mem_cons_of_mem _ ?_
      rw [List.mem_flatMap]
      refine ⟨(conf, tm), hpair, ?_⟩
      rw [hcontrib, List.mem_filter]
      exact ⟨hs, by rw [hsig]; rfl⟩
    · intro hnot hmem
      rw [hcontrib, List.mem_filter] at hmem
      exact hnot hmem.1
  · intro env tns ign conf tm hpair hig hpkg
    have hcontrib : candidate_contribution env ign (conf, tm)
        = [conf.name ++ '.' :: tm] := by
      rw [candidate_contribution]
      simp only [hig, Bool.false_eq_true, if_false, hpkg, Bool.not_false,
        if_true]
    refine ⟨hcontrib, ?_⟩
    rw [discover_tasks_modules]
    refine List.mem_cons_of_mem _ ?_
    rw [List.mem_flatMap]
    exact ⟨(conf, tm), hpair, by rw [hcontrib]; exact List.mem_singleton.mpr rfl⟩

theorem discover_package_expansion_witness :
    str "app.tasks.email" ∈
      discover_tasks_modules envPkg [str "tasks"] [str "app.tasks.sms"] :=
  ((discover_package_expansion.1 envPkg [str "tasks"] [str "app.tasks.sms"]
    ⟨str "app"⟩ (str "tasks") (by decide) (by decide) (by decide)).2.1
    (str "app.tasks.email") (by decide) (by decide))

/-- The resolved options of `Command.handle` (rundramatiq.py lines
106-107).  `argparse` yields `None` for unset string options (modelled
as `Option`); Python truthiness makes `None`, the empty string and the
empty list all falsy. -/
structure HandleOpts where
  watch_dir : Option Str
  skip_logging : Bool
  use_polling_watcher : Bool
  use_gevent : Bool
  path : List Str
  processes : Int
  threads : Int
  verbosity : Nat
  queues : Option (List Str)
  pid_file : Option Str
  log_file : Option Str
  forks : List Str
  worker_shutdown_timeout : Int

/-- Python truthiness of an optional string (`None` and `""` are falsy). -/
def strTruthy : Option Str → Bool
  | none => false
  | some s => !s.isEmpty

/-- `watch_args` (rundramatiq.py lines 110-113):
`["--watch", watch_dir] if watch_dir else []`, with
`"--watch-use-polling"` appended when the list is non-empty and the
polling watcher was requested. -/
def watch_args (o : HandleOpts) : List Str :=
  let base := match o.watch_dir with
    | some w => if w.isEmpty then [] else [str "--watch", w]
    | none => []
  if !base.isEmpty && o.use_polling_watcher then
    base ++ [str "--watch-use-polling"]
  else
    base

/-- `process_args.extend(["--queues", *queues])` guarded by
`if queues:` (lines 142-143): nothing when `queues` is `None` or the
empty list. -/
def queues_args : Option (List Str) → List Str
  | some qs => if qs.isEmpty then [] else str "--queues" :: qs
  | none => []

/-- `process_args.extend([flag, value])` guarded by Python truthiness
of the value (lines 145-149, for `--pid-file` and `--log-file`). -/
def opt_file_args (flag : Str) : Option Str → List Str
  | some f => if f.isEmpty then [] else [flag, f]
  | none => []

/-- The `process_args` vector built by `Command.handle` (rundramatiq.py
lines 108-152), as handed to the worker-supervisor (its head is the
executable name, i.e. `argv[0]`). -/
def build_process_args (o : HandleOpts) (tasks_modules : List Str) : List Str :=
  let executable_name :=
    if o.use_gevent then str "dramatiq-gevent" else str "dramatiq"
  let forks_args :=
    if o.forks.isEmpty then []
    else o.forks.flatMap fun f => [str "--fork-function", f]
  let verbosity_args := List.replicate (o.verbosity - 1) (str "-v")
  let process_args :=
    executable_name :: str "--path" :: o.path
      ++ [str "--processes", intStr o.processes,
          str "--threads", intStr o.threads,
          str "--worker-shutdown-timeout", intStr o.worker_shutdown_timeout]
      ++ watch_args o ++ forks_args ++ verbosity_args ++ tasks_modules
  let process_args := process_args ++ queues_args o.queues
  let process_args := process_args ++ opt_file_args (str "--pid-file") o.pid_file
  let process_args := process_args ++ opt_file_args (str "--log-file") o.log_file
  if o.skip_logging then process_args ++ [str "--skip-logging"] else process_args

/-- C9: the argument vector is built in exactly the order the
specification states — executable name (`argv[0]`), then import
path(s), process count, thread count, shutdown timeout, optional watch
directory plus optional polling flag, fork-function flag+value pairs in
input order, one `-v` per verbosity increment above the base level, the
full discovered module list, then optional queue filter, pid-file path,
log-file path, and the skip-logging flag. -/
theorem build_process_args_order (o : HandleOpts) (tasks_modules : List Str) :
    build_process_args o tasks_modules
      = (if o.use_gevent then str "dramatiq-gevent" else str "dramatiq")
        :: (str "--path" :: o.path
        ++ [str "--processes", intStr o.processes]
        ++ [str "--threads", intStr o.threads]
        ++ [str "--worker-shutdown-timeout", intStr o.worker_shutdown_timeout]
        ++ (match o.watch_dir with
            | some w =>
              if w.isEmpty then []
              else str "--watch" :: w ::
                (if o.use_polling_watcher then [str "--watch-use-polling"]
                 else [])
            | none => [])
        ++ o.forks.flatMap (fun f => [str "--fork-function", f])
        ++ List.replicate (o.verbosity - 1) (str "-v")
        ++ tasks_modules
        ++ (match o.queues with
            | some (q :: qs) => str "--queues" :: q :: qs
            | _ => [])
        ++ (match o.pid_file with
            | some p => if p.isEmpty then [] else [str "--pid-file", p]
            | none => [])
        ++ (match o.log_file with
            | some f => if f.isEmpty then [] else [str "--log-file", f]
            | none => [])
        ++ (if o.skip_logging then [str "--skip-logging"] else [])) := by
  have hforks : (if o.forks.isEmpty then []
      else o.forks.flatMap fun f => [str "--fork-function", f])
      = o.forks.flatMap fun f => [str "--fork-function", f] := by
    cases o.forks <;> simp
  have hwatch : watch_args o
      = (match o.watch_dir with
        | some w =>
          if w.isEmpty then []
          else str "--watch" :: w ::
            (if o.use_polling_watcher then [str "--watch-use-polling"] else [])
        | none => []) := by
    rw [watch_args]
    rcases o.watch_dir with _ | w
    · simp
    · by_cases hw : w.isEmpty <;> cases hp : o.use_polling_watcher <;>
        simp [hw, hp]
  have hqueues : queues_args o.queues
      = (match o.queues with
        | some (q :: qs) => str "--queues" :: q :: qs
        | _ => []) := by
    rcases o.queues with _ | ⟨_ | ⟨q, qs⟩⟩ <;> simp [queues_args]
  simp only [build_process_args, hforks, hwatch, hqueues, opt_file_args]
  cases o.skip_logging <;> simp [List.append_assoc]

/-- When the watch directory is falsy (absent or empty), the watch
component of the vector is empty whatever the polling toggle says. -/
theorem watch_args_eq_nil_of_not_truthy (o : HandleOpts)
    (h : strTruthy o.watch_dir = false) : watch_args o = [] := by
  rw [watch_args]
  rcases hwd : o.watch_dir with _ | w
  · simp
  · rw [hwd] at h
    simp only [strTruthy, Bool.not_eq_false'] at h
    simp [h]

/-- C7: the polling flag `"--watch-use-polling"` is emitted only
together with a `"--watch"` flag, and when no watch directory is set
the polling toggle changes nothing about the produced vector. -/
theorem polling_requires_watch :
    (∀ o : HandleOpts, str "--watch-use-polling" ∈ watch_args o →
        str "--watch" ∈ watch_args o)
    ∧ (∀ (o : HandleOpts) (tasks_modules : List Str),
        strTruthy o.watch_dir = false →
        build_process_args o tasks_modules
          = build_process_args { o with use_polling_watcher := false }
              tasks_modules) := by
  constructor
  · intro o hmem
    rw [watch_args] at hmem ⊢
    revert hmem
    rcases o.watch_dir with _ | w
    · intro hmem
      simp at hmem
    · intro hmem
      by_cases he : w.isEmpty
      · simp [he] at hmem
      · cases hp : o.use_polling_watcher <;> simp [he, hp] at hmem ⊢
  · intro o tasks_modules htruthy
    have h1 : watch_args o = [] := watch_args_eq_nil_of_not_truthy o htruthy
    have h2 : watch_args { o with use_polling_watcher := false } = [] :=
      watch_args_eq_nil_of_not_truthy _ htruthy
    simp only [build_process_args, h1, h2]

/-- The options of a plain `./manage.py rundramatiq` invocation with
the polling toggle set but no watch directory. -/
def optsNoWatch : HandleOpts where
  watch_dir := none
  skip_logging := false
  use_polling_watcher := true
  use_gevent := false
  path := [str "."]
  processes := 4
  threads := 8
  verbosity := 1
  queues := none
  pid_file := none
  log_file := none
  forks := []
  worker_shutdown_timeout := 600000

theorem polling_requires_watch_witness :
    build_process_args optsNoWatch [str "django_dramatiq.setup"]
      = build_process_args { optsNoWatch with use_polling_watcher := false }
          [str "django_dramatiq.setup"] :=
  polling_requires_watch.2 optsNoWatch [str "django_dramatiq.setup"] rfl

/-- C10: supplying the queue option with an empty list is treated
identically to omitting it — the vectors coincide, and the queues
component contributes no `"--queues"` flag in either case. -/
theorem empty_queues_like_absent :
    (∀ (o : HandleOpts) (tasks_modules : List Str),
        build_process_args { o with queues := some [] } tasks_modules
          = build_process_args { o with queues := none } tasks_modules)
    ∧ (∀ q : Option (List Str), q = none ∨ q = some [] → queues_args q = []) := by
  constructor
  · intro o tasks_modules
    rfl
  · intro q hq
    rcases hq with h | h <;> subst h <;> rfl

theorem empty_queues_like_absent_witness : queues_args (some []) = [] :=
  empty_queues_like_absent.2 (some []) (Or.inr rfl)

/-- Modelled from the spec: `getenv_int` (imported from
`django_dramatiq.utils`, whose source is not part of this tree) reads
an integer from the named environment variable, falling back to the
given default when the variable is unset.  The environment is the
oracle `env`. -/
def getenv_int (env : Str → Option Int) (varname : Str) (default : Int) : Int :=
  match env varname with
  | some v => v
  | none => default

/-- `NPROCS = getenv_int("DRAMATIQ_NPROCS", default=multiprocessing.cpu_count)`
(rundramatiq.py line 18); the host CPU count is the oracle `cpu_count`. -/
def NPROCS (env : Str → Option Int) (cpu_count : Int) : Int :=
  getenv_int env (str "DRAMATIQ_NPROCS") cpu_count

/-- `NTHREADS = getenv_int("DRAMATIQ_NTHREADS", 8)` (line 21). -/
def NTHREADS (env : Str → Option Int) : Int :=
  getenv_int env (str "DRAMATIQ_NTHREADS") 8

/-- The process count after `argparse`: the `--processes` flag value
when given, else the parser default `NPROCS` (lines 62-67). -/
def resolved_processes (flag : Option Int) (env : Str → Option Int)
    (cpu_count : Int) : Int :=
  match flag with
  | some v => v
  | none => NPROCS env cpu_count

/-- The thread count after `argparse`: the `--threads` flag value when
given, else the parser default `NTHREADS` (lines 68-73). -/
def resolved_threads (flag : Option Int) (env : Str → Option Int) : Int :=
  match flag with
  | some v => v
  | none => NTHREADS env

/-- C8: the process and thread counts obey flag > environment >
built-in default (host CPU count for processes, the constant 8 for
threads) for all three precedence combinations, and the resolved
values are what the argument vector carries after `"--processes"` and
`"--threads"`. -/
theorem process_thread_count_precedence :
    (∀ (env : Str → Option Int) (cpu_count v : Int),
        resolved_processes (some v) env cpu_count = v)
    ∧ (∀ (env : Str → Option Int) (cpu_count v : Int),
        env (str "DRAMATIQ_NPROCS") = some v →
        resolved_processes none env cpu_count = v)
    ∧ (∀ (env : Str → Option Int) (cpu_count : Int),
        env (str "DRAMATIQ_NPROCS") = none →
        resolved_processes none env cpu_count = cpu_count)
    ∧ (∀ (env : Str → Option Int) (v : Int),
        resolved_threads (some v) env = v)
    ∧ (∀ (env : Str → Option Int) (v : Int),
        env (str "DRAMATIQ_NTHREADS") = some v →
        resolved_threads none env = v)
    ∧ (∀ env : Str → Option Int,
        env (str "DRAMATIQ_NTHREADS") = none →
        resolved_threads none env = 8)
    ∧ (∀ (o : HandleOpts) (tasks_modules : List Str),
        ∃ s t, build_process_args o tasks_modules
          = s ++ [str "--processes", intStr o.processes,
                  str "--threads", intStr o.threads] ++ t) := by
  refine ⟨fun _ _ _ => rfl, ?_, ?_, fun _ _ => rfl, ?_, ?_, ?_⟩
  · intro env cpu_count v h
    simp [resolved_processes, NPROCS, getenv_int, h]
  · intro env cpu_count h
    simp [resolved_processes, NPROCS, getenv_int, h]
  · intro env v h
    simp [resolved_threads, NTHREADS, getenv_int, h]
  · intro env h
    simp [resolved_threads, NTHREADS, getenv_int, h]
  · intro o tasks_modules
    refine ⟨(if o.use_gevent then str "dramatiq-gevent" else str "dramatiq")
      :: str "--path" :: o.path,
      [str "--worker-shutdown-timeout", intStr o.worker_shutdown_timeout]
        ++ watch_args o
        ++ (if o.forks.isEmpty then []
            else o.forks.flatMap fun f => [str "--fork-function", f])
        ++ List.replicate (o.verbosity - 1) (str "-v")
        ++ tasks_modules
        ++ queues_args o.queues
        ++ opt_file_args (str "--pid-file") o.pid_file
        ++ opt_file_args (str "--log-file") o.log_file
        ++ (if o.skip_logging then [str "--skip-logging"] else []), ?_⟩
    simp only [build_process_args]
    cases o.skip_logging <;> simp [List.append_assoc]

theorem process_thread_count_precedence_witness :
    resolved_processes none (fun _ => none) 4 = 4 :=
  process_thread_count_precedence.2.2.1 (fun _ => none) 4 rfl

/-- The argument CPython's `sys.exit` receives: `None`, an integer, or
any other object (such as the `CompletedProcess` returned by
`subprocess.run`). -/
inductive PyExitArg where
  | none
  | int (n : Int)
  | other
deriving DecidableEq

/-- CPython `sys.exit` semantics: exit status 0 for `None`, the value
itself for an integer, and status 1 (after printing the object) for any
other argument. -/
def sys_exit_status : PyExitArg → Int
  | PyExitArg.none => 0
  | PyExitArg.int n => n
  | PyExitArg.other => 1

/-- The child command built on win32 (rundramatiq.py line 156):
`command = [executable_path] + process_args[1:]`. -/
def win32_command (executable_path : Str) (process_args : List Str) : List Str :=
  executable_path :: process_args.drop 1

/-- The launcher's own exit status on win32 (line 157):
`sys.exit(subprocess.run(command))`.  `subprocess.run` waits for the
child and returns a `CompletedProcess` object carrying the child's
`returncode`; `sys.exit` receives that object, not an integer, so the
child's return code is discarded. -/
def win32_handoff_exit_status (_child_returncode : Int) : Int :=
  sys_exit_status PyExitArg.other

/-- C2: on win32 the code spawns the resolved executable with the
computed argument vector (`argv[0]` replaced by the resolved path) and
waits, but its own exit status is always 1 — `sys.exit` is handed the
`CompletedProcess` object instead of the child's return code, so a
child exiting 0 still makes the launcher exit 1. -/
theorem win32_exit_status_is_constant_one :
    (∀ child_returncode : Int,
        win32_handoff_exit_status child_returncode = 1)
    ∧ win32_handoff_exit_status 0 ≠ 0
    ∧ (∀ (executable_path : Str) (process_args : List Str),
        win32_command executable_path process_args
          = executable_path :: process_args.drop 1) :=
  ⟨fun _ => rfl, by decide, fun _ _ => rfl⟩
